import Mathlib

/-!
Verification of the process-resource sampling and aggregation subsystem of the
programResourceReporter NVDA addon, shallowly embedded in Lean 4.

Floating-point percentages and timestamps are modelled as rationals (`ℚ`);
`psutil` exceptions are modelled by an explicit error type and fallible
operations return `Except`.  OS interactions (the scalar `cpu_percent` query,
process validity probes, child enumeration) are passed in as explicit
parameters, so every embedded operation is a pure function of its inputs.
-/

set_option autoImplicit false

namespace PRR

/-- Errors raised by psutil that the code distinguishes:
`psutil.AccessDenied`, `psutil.NoSuchProcess`, and any other exception. -/
inductive PsutilError where
  | accessDenied
  | noSuchProcess
  | other
deriving DecidableEq, Repr

/-- `CPU_MEASUREMENT_INTERVAL` from constants.py (seconds). -/
def CPU_MEASUREMENT_INTERVAL : ℚ := 0.25

/-- `CACHE_CLEANUP_INTERVAL` from constants.py (seconds). -/
def CACHE_CLEANUP_INTERVAL : ℚ := 60

/-- `ERROR_NO_PROCESS` from constants.py. -/
def ERROR_NO_PROCESS : String := "Cannot access program information"

/-- `ERROR_ACCESS_DENIED` from constants.py. -/
def ERROR_ACCESS_DENIED : String := "Cannot access process (requires administrator privileges)"

/-- `ERROR_PROCESS_ENDED` from constants.py. -/
def ERROR_PROCESS_ENDED : String := "Program is no longer running"

/-- `ERROR_GENERAL` from constants.py. -/
def ERROR_GENERAL : String := "Cannot get process information"

/-- The greedy distribution loop inside `ProcessMetrics.get_cpu_usage`
(utils.py lines 55-69): starting from `core_usage = [0.0] * total_cores` and
`remaining = cpu_percent`, while `remaining > 0` and cores are left, fill the
current core with `min remaining 100` and carry the rest.  Cores the loop never
reaches keep their initial `0.0`. -/
def distributeCpu : ℚ → Nat → List ℚ
  | _, 0 => []
  | remaining, Nat.succ n =>
    if 0 < remaining then
      if 100 ≤ remaining then 100 :: distributeCpu (remaining - 100) n
      else remaining :: distributeCpu 0 n
    else 0 :: distributeCpu remaining n

theorem distributeCpu_length (r : ℚ) (n : Nat) : (distributeCpu r n).length = n := by
  induction n generalizing r with
  | zero => rfl
  | succ n ih =>
    unfold distributeCpu
    by_cases h0 : 0 < r
    · by_cases h100 : 100 ≤ r
      · simp [h0, h100, ih]
      · simp [h0, h100, ih]
    · simp [h0, ih]

theorem distributeCpu_nonpos (r : ℚ) (n : Nat) (h : r ≤ 0) :
    distributeCpu r n = List.replicate n 0 := by
  induction n generalizing r with
  | zero => rfl
  | succ n ih =>
    unfold distributeCpu
    have h0 : ¬ 0 < r := not_lt.mpr h
    simp [h0, ih r h, List.replicate_succ]

theorem distributeCpu_mem_bounds (r : ℚ) (n : Nat) (hr : 0 ≤ r) :
    ∀ x ∈ distributeCpu r n, 0 ≤ x ∧ x ≤ 100 := by
  induction n generalizing r with
  | zero => intro x hx; simp [distributeCpu] at hx
  | succ n ih =>
    intro x hx
    unfold distributeCpu at hx
    by_cases h0 : 0 < r
    · by_cases h100 : 100 ≤ r
      · simp [h0, h100] at hx
        rcases hx with hx | hx
        · subst hx; constructor <;> norm_num
        · exact ih (r - 100) (by linarith) x hx
      · simp [h0, h100] at hx
        rcases hx with hx | hx
        · subst hx; exact ⟨hr, le_of_not_le h100⟩
        · exact ih 0 le_rfl x hx
    · simp [h0] at hx
      rcases hx with hx | hx
      · subst hx; constructor <;> norm_num
      · exact ih r hr x hx

theorem distributeCpu_sum (r : ℚ) (n : Nat) (hr : 0 ≤ r) :
    (distributeCpu r n).sum = min r (100 * n) := by
  induction n generalizing r with
  | zero =>
    simp only [distributeCpu, List.sum_nil, Nat.cast_zero, mul_zero]
    exact (min_eq_right hr).symm
  | succ n ih =>
    unfold distributeCpu
    by_cases h0 : 0 < r
    · by_cases h100 : 100 ≤ r
      · have hsub : (0:ℚ) ≤ r - 100 := by linarith
        rw [if_pos h0, if_pos h100]
        simp only [List.sum_cons, ih (r - 100) hsub]
        push_cast
        rcases le_total (r - 100) (100 * n) with hle | hle
        · rw [min_eq_left hle, min_eq_left (by linarith)]
          ring
        · rw [min_eq_right hle, min_eq_right (by linarith)]
          ring
      · have hlt : r < 100 := lt_of_not_le h100
        rw [if_pos h0, if_neg h100]
        simp only [List.sum_cons, ih 0 le_rfl]
        have hn : (0:ℚ) ≤ 100 * n := by positivity
        rw [min_eq_left hn.ge.le]
        push_cast
        have : r ≤ 100 * (n + 1) := by
          have : (0:ℚ) ≤ 100 * n := hn
          linarith
        rw [min_eq_left this]
        simp
    · have hr0 : r = 0 := le_antisymm (not_lt.mp h0) hr
      subst hr0
      rw [if_neg h0]
      simp only [List.sum_cons, distributeCpu_nonpos 0 n le_rfl]
      simp [List.sum_replicate]
      positivity

/-- C4: for every non-negative scalar `s` and core count `N`, the greedy
distribution step inside `get_cpu_usage` returns a vector of length exactly
`N`, every element in `[0,100]`, summing to `min s (100*N)`, filled
lower-index-first (the loop fills core 0 first, carrying the remainder). -/
theorem C4_distribute_spec (s : ℚ) (N : Nat) (hs : 0 ≤ s) :
    (distributeCpu s N).length = N ∧
    (∀ x ∈ distributeCpu s N, 0 ≤ x ∧ x ≤ 100) ∧
    (distributeCpu s N).sum = min s (100 * N) :=
  ⟨distributeCpu_length s N, distributeCpu_mem_bounds s N hs, distributeCpu_sum s N hs⟩

/-- C4 witness: distributing 250 over 4 cores yields `[100,100,50,0]`, which
has length 4, elements in `[0,100]` and sum `min 250 400 = 250`. -/
theorem C4_distribute_spec_witness :
    distributeCpu 250 4 = [100, 100, 50, 0] ∧
    ((distributeCpu 250 4).length = 4 ∧
     (∀ x ∈ distributeCpu 250 4, 0 ≤ x ∧ x ≤ 100) ∧
     (distributeCpu 250 4).sum = min 250 (100 * ((4:Nat) : ℚ))) :=
  ⟨by norm_num [distributeCpu], C4_distribute_spec 250 4 (by norm_num)⟩

/-- The `ProcessMetrics._last_cpu_check` dictionary: process id to timestamp of
the last CPU sample.  `none` models absence of the key. -/
def MetricsState : Type := Nat → Option ℚ

/-- `self._last_cpu_check.get(pid, 0)`: dictionary lookup with default 0. -/
def getTimestamp (st : MetricsState) (pid : Nat) : ℚ := (st pid).getD 0

/-- `self._last_cpu_check[pid] = t`: dictionary assignment. -/
def setTimestamp (st : MetricsState) (pid : Nat) (t : ℚ) : MetricsState :=
  fun p => if p = pid then some t else st p

/-- `self._last_cpu_check.pop(pid, None)`: dictionary key removal. -/
def removeTimestamp (st : MetricsState) (pid : Nat) : MetricsState :=
  fun p => if p = pid then none else st p

/-- `ProcessMetrics.get_cpu_usage` (utils.py lines 24-76).  Inputs beyond the
state: the current wall-clock time, the logical core count (`psutil.cpu_count`
already defaulted to 1), the process id, the result of `is_valid_process`
(that predicate never raises), and the outcome of the
`process.cpu_percent(interval)` OS query, which may raise.  Control flow:
throttle check first (return zeros, state untouched); then validity (raise
`NoSuchProcess`, re-raised by the psutil except clause, timestamp not yet
written); then the timestamp is recorded BEFORE the OS query; psutil errors
from the query re-raise, any other exception yields zeros. -/
def get_cpu_usage (st : MetricsState) (current_time : ℚ) (total_cores : Nat)
    (pid : Nat) (valid : Bool) (osResult : Except PsutilError ℚ) :
    Except PsutilError (List ℚ) × MetricsState :=
  if current_time - getTimestamp st pid < CPU_MEASUREMENT_INTERVAL then
    (Except.ok (List.replicate total_cores 0), st)
  else if valid = false then
    (Except.error PsutilError.noSuchProcess, st)
  else
    match osResult with
    | Except.error PsutilError.accessDenied =>
        (Except.error PsutilError.accessDenied, setTimestamp st pid current_time)
    | Except.error PsutilError.noSuchProcess =>
        (Except.error PsutilError.noSuchProcess, setTimestamp st pid current_time)
    | Except.error PsutilError.other =>
        (Except.ok (List.replicate total_cores 0), setTimestamp st pid current_time)
    | Except.ok cpu_percent =>
        (Except.ok (distributeCpu cpu_percent total_cores), setTimestamp st pid current_time)

/-- `ProcessMetrics.cleanup` (utils.py lines 78-81). -/
def metrics_cleanup (st : MetricsState) (pid : Nat) : MetricsState :=
  removeTimestamp st pid

/-- `get_process_cpu_per_core` (utils.py lines 119-134): validity pre-check
that raises `NoSuchProcess`, then delegation to `metrics.get_cpu_usage`. -/
def get_process_cpu_per_core (st : MetricsState) (current_time : ℚ)
    (total_cores : Nat) (pid : Nat) (valid : Bool)
    (osResult : Except PsutilError ℚ) :
    Except PsutilError (List ℚ) × MetricsState :=
  if valid = false then (Except.error PsutilError.noSuchProcess, st)
  else get_cpu_usage st current_time total_cores pid valid osResult

/-- C2 counterexample: a non-throttled call of `get_cpu_usage` on an invalid
process (fresh state, time 1, 4 cores, pid 5) raises `NoSuchProcess` instead
of returning the zero vector the claim promises. -/
theorem C2_counterexample :
    (get_cpu_usage (fun _ => none) 1 4 5 false (Except.ok 0)).1 =
      Except.error PsutilError.noSuchProcess ∧
    (get_cpu_usage (fun _ => none) 1 4 5 false (Except.ok 0)).1 ≠
      Except.ok (List.replicate 4 0) := by
  have h1 : (get_cpu_usage (fun _ => none) 1 4 5 false (Except.ok 0)).1 =
      Except.error PsutilError.noSuchProcess := by
    norm_num [get_cpu_usage, getTimestamp, CPU_MEASUREMENT_INTERVAL]
  exact ⟨h1, by rw [h1]; exact fun h => Except.noConfusion h⟩

/-- C2 amended: a non-throttled call of `get_cpu_usage` on a process that
fails the validity check raises `NoSuchProcess` (it is re-raised by the psutil
except clause) and leaves the throttle state unchanged; access-denied and
no-such-process failures therefore propagate from `get_cpu_usage` itself, not
only from `get_process_cpu_per_core`.  The zero-vector recovery applies only
to non-psutil exceptions. -/
theorem C2_invalid_raises (st : MetricsState) (t : ℚ) (N : Nat) (pid : Nat)
    (os : Except PsutilError ℚ)
    (hthr : CPU_MEASUREMENT_INTERVAL ≤ t - getTimestamp st pid) :
    get_cpu_usage st t N pid false os =
      (Except.error PsutilError.noSuchProcess, st) ∧
    get_process_cpu_per_core st t N pid false os =
      (Except.error PsutilError.noSuchProcess, st) ∧
    (get_cpu_usage st t N pid true (Except.error PsutilError.other)).1 =
      Except.ok (List.replicate N 0) := by
  have hlt : ¬ t - getTimestamp st pid < CPU_MEASUREMENT_INTERVAL := not_lt.mpr hthr
  refine ⟨?_, ?_, ?_⟩
  · simp [get_cpu_usage, hlt]
  · simp [get_process_cpu_per_core]
  · simp [get_cpu_usage, hlt]

/-- C2 amended witness: concrete instance at a fresh state, time 1, 4 cores,
pid 5. -/
theorem C2_invalid_raises_witness :
    get_cpu_usage (fun _ => none) 1 4 5 false (Except.ok 0) =
      (Except.error PsutilError.noSuchProcess, (fun _ => none : MetricsState)) ∧
    get_process_cpu_per_core (fun _ => none) 1 4 5 false (Except.ok 0) =
      (Except.error PsutilError.noSuchProcess, (fun _ => none : MetricsState)) ∧
    (get_cpu_usage (fun _ => none) 1 4 5 true (Except.error PsutilError.other)).1 =
      Except.ok (List.replicate 4 0) :=
  C2_invalid_raises (fun _ => none) 1 4 5 (Except.ok 0)
    (by norm_num [getTimestamp, CPU_MEASUREMENT_INTERVAL])

/-- C5: a call of `get_cpu_usage` less than 0.25s after the recorded
last-sample time returns the zero vector of length `N` with the state
untouched and without consulting the OS (the result does not depend on the
universally quantified OS outcome `os`); once at least 0.25s has elapsed and
the process is valid, the timestamp is updated to the current time and, when
the OS query succeeds with scalar `c`, the distributed sample is returned. -/
theorem C5_throttle (st : MetricsState) (t : ℚ) (N : Nat) (pid : Nat)
    (valid : Bool) (os : Except PsutilError ℚ) :
    (t - getTimestamp st pid < CPU_MEASUREMENT_INTERVAL →
      get_cpu_usage st t N pid valid os = (Except.ok (List.replicate N 0), st)) ∧
    (CPU_MEASUREMENT_INTERVAL ≤ t - getTimestamp st pid → valid = true →
      (get_cpu_usage st t N pid valid os).2 pid = some t ∧
      ∀ c : ℚ, os = Except.ok c →
        (get_cpu_usage st t N pid valid os).1 = Except.ok (distributeCpu c N)) := by
  constructor
  · intro h
    simp [get_cpu_usage, h]
  · intro h hv
    have hlt : ¬ t - getTimestamp st pid < CPU_MEASUREMENT_INTERVAL := not_lt.mpr h
    subst hv
    cases os with
    | ok c => exact ⟨by simp [get_cpu_usage, hlt, setTimestamp], by intro d hd; cases hd; simp [get_cpu_usage, hlt]⟩
    | error e =>
        cases e <;>
          exact ⟨by simp [get_cpu_usage, hlt, setTimestamp], by intro d hd; cases hd⟩

/-- C5 witness: on a fresh state with pid 7, a call at time 0 is throttled
(0 - 0 < 0.25) and returns zeros untouched; a call at time 1 records
timestamp 1 and returns the distribution of the sampled scalar 250 over 4
cores. -/
theorem C5_throttle_witness :
    (get_cpu_usage (fun _ => none) 0 4 7 true (Except.ok 250) =
      (Except.ok (List.replicate 4 0), (fun _ => none : MetricsState))) ∧
    ((get_cpu_usage (fun _ => none) 1 4 7 true (Except.ok 250)).2 7 = some 1 ∧
     (get_cpu_usage (fun _ => none) 1 4 7 true (Except.ok 250)).1 =
       Except.ok (distributeCpu 250 4)) := by
  constructor
  · exact (C5_throttle (fun _ => none) 0 4 7 true (Except.ok 250)).1
      (by norm_num [getTimestamp, CPU_MEASUREMENT_INTERVAL])
  · have h := (C5_throttle (fun _ => none) 1 4 7 true (Except.ok 250)).2
      (by norm_num [getTimestamp, CPU_MEASUREMENT_INTERVAL]) rfl
    exact ⟨h.1, h.2 250 rfl⟩

/-- C10: when a non-throttled call on a valid process hits `AccessDenied`
from the OS sampling query, the exception propagates but the throttle
timestamp has already been recorded, so every retry for the same pid within
the following 0.25s returns a zero vector instead of re-raising. -/
theorem C10_failed_sample_consumes_throttle (st : MetricsState) (t1 t2 : ℚ)
    (N M : Nat) (pid : Nat)
    (h1 : CPU_MEASUREMENT_INTERVAL ≤ t1 - getTimestamp st pid)
    (h2 : t2 - t1 < CPU_MEASUREMENT_INTERVAL) :
    (get_cpu_usage st t1 N pid true (Except.error PsutilError.accessDenied)).1 =
      Except.error PsutilError.accessDenied ∧
    (get_cpu_usage st t1 N pid true (Except.error PsutilError.accessDenied)).2 pid =
      some t1 ∧
    ∀ (valid2 : Bool) (os2 : Except PsutilError ℚ),
      (get_cpu_usage
        (get_cpu_usage st t1 N pid true (Except.error PsutilError.accessDenied)).2
        t2 M pid valid2 os2).1 = Except.ok (List.replicate M 0) := by
  have hlt : ¬ t1 - getTimestamp st pid < CPU_MEASUREMENT_INTERVAL := not_lt.mpr h1
  have hfst : (get_cpu_usage st t1 N pid true (Except.error PsutilError.accessDenied)) =
      (Except.error PsutilError.accessDenied, setTimestamp st pid t1) := by
    simp [get_cpu_usage, hlt]
  refine ⟨by rw [hfst], by rw [hfst]; simp [setTimestamp], ?_⟩
  intro valid2 os2
  rw [hfst]
  have hts : getTimestamp (setTimestamp st pid t1) pid = t1 := by
    simp [getTimestamp, setTimestamp]
  simp [get_cpu_usage, hts, h2]

/-- C10 witness: fresh state, first call at time 1 (not throttled) hits
access-denied; the retry at time 1.1 returns the zero vector. -/
theorem C10_failed_sample_consumes_throttle_witness :
    (get_cpu_usage (fun _ => none) 1 2 9 true (Except.error PsutilError.accessDenied)).1 =
      Except.error PsutilError.accessDenied ∧
    (get_cpu_usage (fun _ => none) 1 2 9 true (Except.error PsutilError.accessDenied)).2 9 =
      some 1 ∧
    ∀ (valid2 : Bool) (os2 : Except PsutilError ℚ),
      (get_cpu_usage
        (get_cpu_usage (fun _ => none) 1 2 9 true (Except.error PsutilError.accessDenied)).2
        1.1 2 9 valid2 os2).1 = Except.ok (List.replicate 2 0) :=
  C10_failed_sample_consumes_throttle (fun _ => none) 1 1.1 2 2 9
    (by norm_num [getTimestamp, CPU_MEASUREMENT_INTERVAL])
    (by norm_num [CPU_MEASUREMENT_INTERVAL])

/-- `calculate_average_cpu` (utils.py lines 141-154): 0 on the empty vector,
otherwise the plain mean `sum / length` of the per-core percentages. -/
def calculate_average_cpu (per_core_usage : List ℚ) : ℚ :=
  if per_core_usage = [] then 0
  else per_core_usage.sum / per_core_usage.length

theorem sum_le_hundred_mul_length (v : List ℚ) (hb : ∀ x ∈ v, x ≤ 100) :
    v.sum ≤ 100 * v.length := by
  have h := List.sum_le_card_nsmul v 100 hb
  rwa [nsmul_eq_mul, mul_comm] at h

/-- C1: on every non-empty combined vector whose entries are utilization
percentages (each in `[0,100]`), the reported average equals the
fraction-of-total-capacity formula `sum / (length * 100)` expressed as a
percentage and capped at 100.  (On such vectors this value coincides with the
plain mean `sum / length` that the code computes, and the cap never binds.) -/
theorem C1_average_total_capacity (v : List ℚ) (hne : v ≠ [])
    (hb : ∀ x ∈ v, 0 ≤ x ∧ x ≤ 100) :
    calculate_average_cpu v = min 100 (v.sum / (v.length * 100) * 100) := by
  have hlen : v.length ≠ 0 := fun h => hne (List.length_eq_zero.mp h)
  have hlpos : (0:ℚ) < v.length := by
    exact_mod_cast Nat.pos_of_ne_zero hlen
  have hfrac : v.sum / (v.length * 100) * 100 = v.sum / v.length := by
    field_simp
    ring
  have hsum : v.sum ≤ 100 * v.length :=
    sum_le_hundred_mul_length v (fun x hx => (hb x hx).2)
  have hle : v.sum / v.length ≤ 100 := by
    rw [div_le_iff₀ hlpos]
    linarith
  rw [calculate_average_cpu, if_neg hne, hfrac, min_eq_right hle]

/-- C1 witness: the combined vector `[100,100,50,0]` gives 62.5, which equals
the capped total-capacity fraction `min 100 (250/400*100)`. -/
theorem C1_average_total_capacity_witness :
    calculate_average_cpu [100, 100, 50, 0] =
      min 100 (([100, 100, 50, 0] : List ℚ).sum /
        (([100, 100, 50, 0] : List ℚ).length * 100) * 100) ∧
    calculate_average_cpu [100, 100, 50, 0] = 62.5 :=
  ⟨C1_average_total_capacity [100, 100, 50, 0] (List.cons_ne_nil _ _) (by norm_num),
   by rw [calculate_average_cpu, if_neg (List.cons_ne_nil (100:ℚ) _)]; norm_num⟩

/-- One iteration of the loop body of `GlobalPlugin._get_combined_cpu_usage`
(`__init__.py` lines 139-162) for one process vector `per_core`: if the
accumulator is still empty it becomes a plain copy of `per_core`; otherwise
the accumulator is first extended with zeros when `per_core` is longer, then
every index below `per_core.length` is updated to
`min 100 (accumulator[i] + per_core[i])` and the tail keeps its value. -/
def combineStep (all_cores_usage per_core : List ℚ) : List ℚ :=
  if all_cores_usage = [] then per_core
  else
    let extended :=
      if all_cores_usage.length < per_core.length then
        all_cores_usage ++ List.replicate (per_core.length - all_cores_usage.length) 0
      else all_cores_usage
    (List.zipWith (fun a u => min 100 (a + u)) extended per_core) ++
      extended.drop per_core.length

/-- `GlobalPlugin._get_combined_cpu_usage` restricted to its combining step:
the fold of `combineStep` over the per-process vectors that were sampled
successfully (vectors whose sampling raised are skipped by the loop). -/
def get_combined_cpu_usage (vectors : List (List ℚ)) : List ℚ :=
  vectors.foldl combineStep []

theorem mem_zipWith_cap {x : ℚ} : ∀ (as bs : List ℚ),
    x ∈ List.zipWith (fun a u => min 100 (a + u)) as bs →
    ∃ a ∈ as, ∃ b ∈ bs, x = min 100 (a + b) := by
  intro as
  induction as with
  | nil => intro bs h; simp at h
  | cons a as ih =>
    intro bs h
    cases bs with
    | nil => simp at h
    | cons b bs =>
      simp only [List.zipWith, List.mem_cons] at h
      rcases h with h | h
      · exact ⟨a, by simp, b, by simp, h⟩
      · obtain ⟨a1, ha1, b1, hb1, hx⟩ := ih bs h
        exact ⟨a1, by simp [ha1], b1, by simp [hb1], hx⟩

theorem combineStep_bounds (acc pc : List ℚ)
    (ha : ∀ x ∈ acc, 0 ≤ x ∧ x ≤ 100) (hp : ∀ x ∈ pc, 0 ≤ x ∧ x ≤ 100) :
    ∀ x ∈ combineStep acc pc, 0 ≤ x ∧ x ≤ 100 := by
  intro x hx
  unfold combineStep at hx
  by_cases hacc : acc = []
  · rw [if_pos hacc] at hx
    exact hp x hx
  · rw [if_neg hacc] at hx
    simp only at hx
    set ext := if acc.length < pc.length then
        acc ++ List.replicate (pc.length - acc.length) 0 else acc with hext_def
    have hext : ∀ y ∈ ext, 0 ≤ y ∧ y ≤ 100 := by
      intro y hy
      rw [hext_def] at hy
      by_cases hlen : acc.length < pc.length
      · rw [if_pos hlen] at hy
        rcases List.mem_append.mp hy with hy | hy
        · exact ha y hy
        · have := List.eq_of_mem_replicate hy
          subst this
          constructor <;> norm_num
      · rw [if_neg hlen] at hy
        exact ha y hy
    rcases List.mem_append.mp hx with hx | hx
    · obtain ⟨a, ha1, b, hb1, rfl⟩ := mem_zipWith_cap ext pc hx
      constructor
      · exact le_min (by norm_num) (by have := (hext a ha1).1; have := (hp b hb1).1; linarith)
      · exact min_le_left _ _
    · exact hext x (List.mem_of_mem_drop hx)

theorem foldl_combineStep_bounds : ∀ (vs : List (List ℚ)) (acc : List ℚ),
    (∀ x ∈ acc, 0 ≤ x ∧ x ≤ 100) →
    (∀ v ∈ vs, ∀ x ∈ v, 0 ≤ x ∧ x ≤ 100) →
    ∀ x ∈ vs.foldl combineStep acc, 0 ≤ x ∧ x ≤ 100 := by
  intro vs
  induction vs with
  | nil => intro acc ha _ x hx; exact ha x hx
  | cons v vs ih =>
    intro acc ha hv x hx
    exact ih (combineStep acc v)
      (combineStep_bounds acc v ha (hv v (by simp)))
      (fun w hw => hv w (by simp [hw])) x hx

/-- C3 counterexample: the first sampled vector is copied into the
accumulator without capping, so a single process reporting `[160]` makes the
combined vector `[160]`, whose element exceeds 100 — the claim's
"regardless of the input values" fails. -/
theorem C3_counterexample :
    get_combined_cpu_usage [[160]] = [160] ∧
    ∃ x ∈ get_combined_cpu_usage [[160]], (100:ℚ) < x := by
  have h : get_combined_cpu_usage [[160]] = [160] := by
    norm_num [get_combined_cpu_usage, combineStep]
  exact ⟨h, 160, by rw [h]; simp, by norm_num⟩

/-- C3 amended: whenever every element of every input vector lies in
`[0,100]` — which is what the sampling layer always produces — every element
of the combined vector lies in `[0,100]`: later vectors are added with a cap
at 100 per core, shorter vectors are padded with zeros, and the uncapped copy
of the first vector is already bounded. -/
theorem C3_combined_capped (vs : List (List ℚ))
    (h : ∀ v ∈ vs, ∀ x ∈ v, 0 ≤ x ∧ x ≤ 100) :
    ∀ x ∈ get_combined_cpu_usage vs, 0 ≤ x ∧ x ≤ 100 :=
  foldl_combineStep_bounds vs [] (by simp) h

/-- C3 amended witness: two processes each reporting `[80]` on one core
combine to `[100]`, not `[160]`, and the bound theorem applies. -/
theorem C3_combined_capped_witness :
    get_combined_cpu_usage [[80], [80]] = [100] ∧
    (∀ x ∈ get_combined_cpu_usage [[(80:ℚ)], [80]], 0 ≤ x ∧ x ≤ 100) :=
  ⟨by norm_num [get_combined_cpu_usage, combineStep],
   C3_combined_capped [[80], [80]] (by norm_num)⟩

/-- The joint state of `ProcessCache` and the shared `ProcessMetrics`
instance: the set of cached pids (`self._cache` keys; the stored handles are
interrogated only through the validity oracle), the metrics timestamp map,
and `self._last_cleanup`. -/
structure CacheState where
  cache : List Nat
  metrics : MetricsState
  lastCleanup : ℚ

/-- `ProcessCache._remove_process` (process_cache.py lines 61-64): evict the
cache entry and delegate to `metrics.cleanup(pid)`. -/
def remove_process (st : CacheState) (pid : Nat) : CacheState :=
  { cache := st.cache.filter (fun q => q != pid),
    metrics := metrics_cleanup st.metrics pid,
    lastCleanup := st.lastCleanup }

/-- `ProcessCache._cleanup` (process_cache.py lines 66-80): no-op inside the
60s interval; otherwise remove every cached pid failing the validity check
(with sample-state release) and stamp the sweep time. -/
def cache_cleanup (st : CacheState) (now : ℚ) (valid : Nat → Bool) : CacheState :=
  if now - st.lastCleanup < CACHE_CLEANUP_INTERVAL then st
  else
    let stale := st.cache.filter (fun pid => !(valid pid))
    let st1 := stale.foldl remove_process st
    { st1 with lastCleanup := now }

/-- `ProcessCache.clear` (process_cache.py lines 82-88): `_remove_process`
every cached pid, then clear the dictionary. -/
def cache_clear (st : CacheState) : CacheState :=
  let st1 := st.cache.foldl remove_process st
  { st1 with cache := [] }

/-- `self._cache[pid] = child`: dictionary assignment on the key set. -/
def registerPid (c : List Nat) (pid : Nat) : List Nat :=
  if pid ∈ c then c else c ++ [pid]

/-- The registration loop of `get_child_processes`: each enumerated child
passing the validity check is written into the cache. -/
def registerValidChildren (child_valid : Nat → Bool) (c : List Nat)
    (children : List Nat) : List Nat :=
  children.foldl (fun acc pid => if child_valid pid then registerPid acc pid else acc) c

/-- `ProcessCache.get_child_processes` (process_cache.py lines 36-59): return
`[]` on an invalid parent; enumerate descendants outside the lock (`none`
models the enumeration raising, which yields `[]`); under the lock register
each valid child and collect the valid subset.  The method never consults the
clock and never calls `_cleanup`. -/
def get_child_processes (st : CacheState) (parent_valid : Bool)
    (children : Option (List Nat)) (child_valid : Nat → Bool) :
    List Nat × CacheState :=
  if parent_valid = false then ([], st)
  else
    match children with
    | none => ([], st)
    | some cs =>
        (cs.filter child_valid,
         { st with cache := registerValidChildren child_valid st.cache cs })

/-- `GlobalPlugin.terminate` (`__init__.py` lines 215-239): clear the process
cache, then call `metrics.cleanup(0)` ("clean up any remaining metrics"),
which removes only the timestamp of pid 0. -/
def terminate (st : CacheState) : CacheState :=
  let st1 := cache_clear st
  { st1 with metrics := metrics_cleanup st1.metrics 0 }

theorem foldl_remove_metrics (l : List Nat) (st : CacheState) (p : Nat) :
    (l.foldl remove_process st).metrics p =
      if p ∈ l then none else st.metrics p := by
  induction l generalizing st with
  | nil => simp
  | cons a l ih =>
    simp only [List.foldl_cons, ih, List.mem_cons]
    by_cases hp : p ∈ l
    · simp [hp]
    · by_cases hpa : p = a
      · subst hpa
        simp [hp, remove_process, metrics_cleanup, removeTimestamp]
      · simp [hp, hpa, remove_process, metrics_cleanup, removeTimestamp]

/-- C8: `_remove_process` evicts the cache entry and the pid's throttle
timestamp together, and `clear` does the same for every cached pid: after
either operation no evicted pid retains sample-state. -/
theorem C8_remove_and_clear_release_sample_state (st : CacheState) (pid : Nat) :
    (pid ∉ (remove_process st pid).cache ∧
     (remove_process st pid).metrics pid = none) ∧
    ((cache_clear st).cache = [] ∧
     ∀ q ∈ st.cache, (cache_clear st).metrics q = none) := by
  refine ⟨⟨?_, ?_⟩, ?_, ?_⟩
  · intro h
    have := (List.mem_filter.mp h).2
    simp at this
  · simp [remove_process, metrics_cleanup, removeTimestamp]
  · rfl
  · intro q hq
    show (st.cache.foldl remove_process st).metrics q = none
    rw [foldl_remove_metrics, if_pos hq]

/-- C8 witness: a state caching pid 3 with a recorded timestamp; both removal
and clear leave neither the cache entry nor the timestamp. -/
theorem C8_remove_and_clear_release_sample_state_witness :
    3 ∉ (remove_process ⟨[3], fun p => if p = 3 then some 2 else none, 0⟩ 3).cache ∧
    (remove_process ⟨[3], fun p => if p = 3 then some 2 else none, 0⟩ 3).metrics 3 = none ∧
    (cache_clear ⟨[3], fun p => if p = 3 then some 2 else none, 0⟩).cache = [] ∧
    (cache_clear ⟨[3], fun p => if p = 3 then some 2 else none, 0⟩).metrics 3 = none := by
  have h := C8_remove_and_clear_release_sample_state
    ⟨[3], fun p => if p = 3 then some 2 else none, 0⟩ 3
  exact ⟨h.1.1, h.1.2, h.2.1, h.2.2 3 (by simp)⟩

/-- C6 counterexample: with pid 5 cached, its process now invalid, and the
last sweep 1000 seconds in the past, a `get_child_processes` call on a valid
parent leaves the stale entry and the sweep timestamp untouched — while a due
`_cleanup` pass at that moment would have purged pid 5.  The method runs no
cleanup pass (it does not even consult the clock). -/
theorem C6_counterexample :
    (get_child_processes ⟨[5], fun _ => none, 0⟩ true (some []) (fun _ => false)).2.cache = [5] ∧
    (get_child_processes ⟨[5], fun _ => none, 0⟩ true (some []) (fun _ => false)).2.lastCleanup = 0 ∧
    (cache_cleanup ⟨[5], fun _ => none, 0⟩ 1000 (fun _ => false)).cache = [] ∧
    (cache_cleanup ⟨[5], fun _ => none, 0⟩ 1000 (fun _ => false)).lastCleanup = 1000 := by
  refine ⟨rfl, rfl, ?_, ?_⟩ <;>
    norm_num [cache_cleanup, CACHE_CLEANUP_INTERVAL, remove_process]

theorem mem_registerPid_of_mem (c : List Nat) (pid p : Nat) (h : p ∈ c) :
    p ∈ registerPid c pid := by
  unfold registerPid
  by_cases hm : pid ∈ c
  · rwa [if_pos hm]
  · rw [if_neg hm]
    exact List.mem_append_left _ h

theorem mem_registerPid_self (c : List Nat) (pid : Nat) :
    pid ∈ registerPid c pid := by
  unfold registerPid
  by_cases hm : pid ∈ c
  · rwa [if_pos hm]
  · rw [if_neg hm]
    exact List.mem_append_right _ (by simp)

theorem mem_registerValidChildren_of_mem (child_valid : Nat → Bool) :
    ∀ (children : List Nat) (c : List Nat) (p : Nat), p ∈ c →
      p ∈ registerValidChildren child_valid c children := by
  intro children
  induction children with
  | nil => intro c p h; exact h
  | cons a l ih =>
    intro c p h
    show p ∈ List.foldl _ (if child_valid a then registerPid c a else c) l
    by_cases hv : child_valid a
    · rw [if_pos hv]
      exact ih (registerPid c a) p (mem_registerPid_of_mem c a p h)
    · rw [if_neg hv]
      exact ih c p h

theorem mem_registerValidChildren_self (child_valid : Nat → Bool) :
    ∀ (children : List Nat) (c : List Nat) (p : Nat), p ∈ children →
      child_valid p = true → p ∈ registerValidChildren child_valid c children := by
  intro children
  induction children with
  | nil => intro c p h; simp at h
  | cons a l ih =>
    intro c p h hv
    rcases List.mem_cons.mp h with h | h
    · subst h
      show p ∈ List.foldl _ (if child_valid p then registerPid c p else c) l
      rw [if_pos hv]
      exact mem_registerValidChildren_of_mem child_valid l (registerPid c p) p
        (mem_registerPid_self c p)
    · exact ih _ p h hv

/-- C6 amended: `get_child_processes` on a valid parent registers the
enumerated valid children into the cache and returns the valid subset, but it
runs no cleanup pass: the last-sweep timestamp, the metrics map, and every
pre-existing cache entry (stale or not) are left untouched.  The periodic
cleanup pass is triggered only from `ProcessCache.get`, not from this access
path. -/
theorem C6_children_registered_no_cleanup (st : CacheState)
    (children : List Nat) (child_valid : Nat → Bool) :
    (get_child_processes st true (some children) child_valid).1 =
      children.filter child_valid ∧
    (get_child_processes st true (some children) child_valid).2.lastCleanup =
      st.lastCleanup ∧
    (get_child_processes st true (some children) child_valid).2.metrics =
      st.metrics ∧
    (∀ p ∈ st.cache, p ∈ (get_child_processes st true (some children) child_valid).2.cache) ∧
    (∀ c ∈ children, child_valid c = true →
      c ∈ (get_child_processes st true (some children) child_valid).2.cache) := by
  refine ⟨rfl, rfl, rfl, ?_, ?_⟩
  · intro p hp
    exact mem_registerValidChildren_of_mem child_valid children st.cache p hp
  · intro c hc hv
    exact mem_registerValidChildren_self child_valid children st.cache c hc hv

/-- C6 amended witness: pid 5 is cached and stale, children 8 (valid) and 9
(invalid) are enumerated; the call returns `[8]`, registers 8, keeps 5, and
leaves the sweep timestamp and metrics untouched. -/
theorem C6_children_registered_no_cleanup_witness :
    (get_child_processes ⟨[5], fun _ => none, 0⟩ true (some [8, 9]) (fun p => p == 8)).1 = [8] ∧
    (get_child_processes ⟨[5], fun _ => none, 0⟩ true (some [8, 9]) (fun p => p == 8)).2.lastCleanup = 0 ∧
    (get_child_processes ⟨[5], fun _ => none, 0⟩ true (some [8, 9]) (fun p => p == 8)).2.metrics =
      (fun _ => none : MetricsState) ∧
    5 ∈ (get_child_processes ⟨[5], fun _ => none, 0⟩ true (some [8, 9]) (fun p => p == 8)).2.cache ∧
    8 ∈ (get_child_processes ⟨[5], fun _ => none, 0⟩ true (some [8, 9]) (fun p => p == 8)).2.cache := by
  have h := C6_children_registered_no_cleanup ⟨[5], fun _ => none, 0⟩ [8, 9] (fun p => p == 8)
  exact ⟨h.1, h.2.1, h.2.2.1, h.2.2.2.1 5 (by simp), h.2.2.2.2 8 (by simp) (by simp)⟩

/-- C7: at the failing input the claim is right and the code wrong.  The
focused root process (pid 10 here) receives a throttle timestamp when sampled
but is never entered into the cache (`get_child_processes` caches only
children).  `terminate` clears the cache and then calls `metrics.cleanup(0)`,
which its comment says cleans up "any remaining metrics" but in fact removes
only pid 0 — so pid 10's timestamp survives teardown. -/
theorem C7_code_bug_orphaned_root_timestamp :
    (terminate ⟨[], fun p => if p = 10 then some 5 else none, 0⟩).cache = [] ∧
    (terminate ⟨[], fun p => if p = 10 then some 5 else none, 0⟩).metrics 10 = some 5 := by
  constructor
  · rfl
  · norm_num [terminate, cache_clear, metrics_cleanup, removeTimestamp]

/-- `MetricType` (`__init__.py` lines 43-47). -/
inductive MetricType where
  | ram
  | cpu_per_core
  | cpu_average
deriving DecidableEq, Repr

/-- `GlobalPlugin._report_metric` (`__init__.py` lines 79-116), modelled as
the list of strings passed to `ui.message` during one invocation.  Inputs:
the resolved program name (`get_focused_process` never raises; `none` models
its empty result), the collected process list (`get_all_processes` never
raises), and the outcome of the per-type calculation, which returns a
formatted string, `None`, or raises.  The dispatch: missing name or empty
process list speaks the no-process phrase; a `None` calculation speaks the
program-ended phrase; `psutil.AccessDenied` is caught by its dedicated except
clause; every other exception falls to the generic clause. -/
def report_metric (program_name : Option String) (processes : List Nat)
    (calcOf : MetricType → Except PsutilError (Option String))
    (metric_type : MetricType) : List String :=
  match program_name with
  | none => [ERROR_NO_PROCESS]
  | some _ =>
    if processes = [] then [ERROR_NO_PROCESS]
    else
      match calcOf metric_type with
      | Except.ok (some message) => [message]
      | Except.ok none => [ERROR_PROCESS_ENDED]
      | Except.error PsutilError.accessDenied => [ERROR_ACCESS_DENIED]
      | Except.error PsutilError.noSuchProcess => [ERROR_GENERAL]
      | Except.error PsutilError.other => [ERROR_GENERAL]

/-- C9: every invocation of `_report_metric` (for each of the three metric
types) speaks exactly one message, and that message is: the no-process phrase
exactly when focus resolution or process collection is empty; otherwise the
formatted report when the calculation yields one, the program-ended phrase
when it yields no data, the access-denied phrase exactly when
`psutil.AccessDenied` propagates, and the general-failure phrase for any
other exception. -/
theorem C9_report_metric_one_message (program_name : Option String)
    (processes : List Nat)
    (calcOf : MetricType → Except PsutilError (Option String))
    (mt : MetricType) :
    (report_metric program_name processes calcOf mt).length = 1 ∧
    ((program_name = none ∨ processes = []) →
      report_metric program_name processes calcOf mt = [ERROR_NO_PROCESS]) ∧
    (∀ n, program_name = some n → processes ≠ [] →
      report_metric program_name processes calcOf mt =
        [match calcOf mt with
         | Except.ok (some message) => message
         | Except.ok none => ERROR_PROCESS_ENDED
         | Except.error PsutilError.accessDenied => ERROR_ACCESS_DENIED
         | Except.error PsutilError.noSuchProcess => ERROR_GENERAL
         | Except.error PsutilError.other => ERROR_GENERAL]) := by
  refine ⟨?_, ?_, ?_⟩
  · cases program_name with
    | none => rfl
    | some n =>
      show (if processes = [] then [ERROR_NO_PROCESS] else _).length = 1
      by_cases hp : processes = []
      · rw [if_pos hp]; rfl
      · rw [if_neg hp]
        rcases calcOf mt with e | m
        · cases e <;> rfl
        · cases m <;> rfl
  · intro h
    rcases h with h | h
    · subst h; rfl
    · cases program_name with
      | none => rfl
      | some n =>
        show (if processes = [] then [ERROR_NO_PROCESS] else _) = _
        rw [if_pos h]
  · intro n hn hp
    subst hn
    show (if processes = [] then [ERROR_NO_PROCESS] else _) = _
    rw [if_neg hp]
    rcases calcOf mt with e | m
    · cases e <;> rfl
    · cases m <;> rfl

/-- C9 witness: concrete invocations covering each spoken outcome — the
formatted report, and each of the four fixed error phrases. -/
theorem C9_report_metric_one_message_witness :
    (report_metric (some "app.exe") [10] (fun _ => Except.ok (some "report"))
      MetricType.ram).length = 1 ∧
    report_metric none [10] (fun _ => Except.ok (some "report"))
      MetricType.ram = [ERROR_NO_PROCESS] ∧
    report_metric (some "app.exe") [] (fun _ => Except.ok (some "report"))
      MetricType.cpu_per_core = [ERROR_NO_PROCESS] ∧
    report_metric (some "app.exe") [10] (fun _ => Except.ok (some "report"))
      MetricType.ram = ["report"] ∧
    report_metric (some "app.exe") [10] (fun _ => Except.ok none)
      MetricType.cpu_per_core = [ERROR_PROCESS_ENDED] ∧
    report_metric (some "app.exe") [10]
      (fun _ => Except.error PsutilError.accessDenied)
      MetricType.cpu_average = [ERROR_ACCESS_DENIED] ∧
    report_metric (some "app.exe") [10] (fun _ => Except.error PsutilError.other)
      MetricType.ram = [ERROR_GENERAL] := by
  refine ⟨?_, ?_, ?_, ?_, ?_, ?_, ?_⟩
  · exact (C9_report_metric_one_message (some "app.exe") [10]
      (fun _ => Except.ok (some "report")) MetricType.ram).1
  · exact (C9_report_metric_one_message none [10]
      (fun _ => Except.ok (some "report")) MetricType.ram).2.1 (Or.inl rfl)
  · exact (C9_report_metric_one_message (some "app.exe") []
      (fun _ => Except.ok (some "report")) MetricType.cpu_per_core).2.1 (Or.inr rfl)
  · exact (C9_report_metric_one_message (some "app.exe") [10]
      (fun _ => Except.ok (some "report")) MetricType.ram).2.2 "app.exe" rfl (by simp)
  · exact (C9_report_metric_one_message (some "app.exe") [10]
      (fun _ => Except.ok none) MetricType.cpu_per_core).2.2 "app.exe" rfl (by simp)
  · exact (C9_report_metric_one_message (some "app.exe") [10]
      (fun _ => Except.error PsutilError.accessDenied) MetricType.cpu_average).2.2
      "app.exe" rfl (by simp)
  · exact (C9_report_metric_one_message (some "app.exe") [10]
      (fun _ => Except.error PsutilError.other) MetricType.ram).2.2
      "app.exe" rfl (by simp)

end PRR
